import Mathlib

/-!
Verification development for the cloud speech-to-text streaming client
(`GoogleSttStreamer`, src/cloud-utils/cloud-stt.cpp).

The embedding is sequential and oracle-driven: wall-clock time and the
outcomes of network operations (stream creation, configuration write,
per-frame audio writes, responses read) are passed in as explicit
parameters, and each C++ method becomes a pure function on an explicit
`StreamerState`.  Floating-point samples are modelled as rationals with
exact arithmetic; `lroundf` is modelled as round-half-away-from-zero.
-/

/-- Round half away from zero, the semantics of C's `lroundf`. -/
def lroundQ (x : ℚ) : ℤ :=
  if 0 ≤ x then ⌊x + 1 / 2⌋ else -⌊-x + 1 / 2⌋

/-- Clamp to [-1, 1] exactly as the two leading `if`s of `f32_to_s16` do. -/
def clampF (x : ℚ) : ℚ :=
  if 1 < x then 1 else if x < -1 then -1 else x

/-- Embedding of `f32_to_s16` (cloud-stt.cpp:28): clamp to [-1,1], scale by
32767 and round to nearest (half away from zero). -/
def f32_to_s16 (x : ℚ) : ℤ :=
  lroundQ (clampF x * 32767)

/-- Modelled from the spec: the finality marker of a Detection Result
(`transcription-filter-data.h` is not in the sources).  The code's
`DETECTION_RESULT_SPEECH` marks a final result, `DETECTION_RESULT_PARTIAL`
an interim one. -/
inductive DetectionResult where
  | SPEECH
  | PARTIAL
  deriving DecidableEq, Repr

/-- Modelled from the spec: the Detection Result value object handed to the
host callback (`transcription-filter-data.h` is not in the sources): text,
finality, language code, start/end timestamps in ms. -/
structure DetectionResultWithText where
  text : String
  result : DetectionResult
  language : String
  start_timestamp_ms : Nat
  end_timestamp_ms : Nat
  deriving DecidableEq, Repr

/-- Modelled from the spec: the two fields of `transcription_filter_data`
that the result consumer reads (the defining header is not in the sources):
the configured cloud transcription language and the base recognition
language (`whisper_params.language`, a possibly null C string). -/
structure TranscriptionFilterData where
  cloud_transcription_language : String
  whisper_language : Option String
  deriving DecidableEq, Repr

/-- The `Impl` handle of cloud-stt.cpp:19: channel and stub are always
created with it; `stream` records whether `StreamingRecognize` returned a
live stream. -/
structure ImplState where
  stream : Bool
  deriving DecidableEq, Repr

/-- The fields of `GoogleSttStreamer` (cloud-stt.h).  Threads are modelled
by liveness booleans (`reader`), the pending deque by a list of rational
samples, and `impl_` by an optional `ImplState`. -/
structure StreamerState where
  gf : Option TranscriptionFilterData
  pending : List ℚ
  reader : Bool
  running : Bool
  impl : Option ImplState
  sent_samples : Nat
  language_code : String
  api_key : String
  rotating : Bool
  start_ms : Nat
  rotate_interval_ms : Nat
  deriving DecidableEq

namespace GoogleSttStreamer

/-- Whether `impl_ && impl_->stream` holds, the guard of the write loop. -/
def hasStream (st : StreamerState) : Bool :=
  match st.impl with
  | some i => i.stream
  | none => false

/-- Embedding of `shouldRotate` (cloud-stt.cpp:38): running and older than
the rotation interval. -/
def shouldRotate (st : StreamerState) (now : Nat) : Bool :=
  st.running && decide (st.rotate_interval_ms < now - st.start_ms)

/-- Embedding of `requestRotate` (cloud-stt.cpp:127) as the atomic
compare-and-swap step it performs on `rotating_`: returns the updated state
and whether this call won the gate and proceeds to spawn the rotation
task. -/
def requestRotate (st : StreamerState) : StreamerState × Bool :=
  if st.rotating then (st, false)
  else ({ st with rotating := true }, true)

/-- Embedding of `stop` (cloud-stt.cpp:104): clear running, close and
release the network handle, join the reader, clear the pending buffer. -/
def stop (st : StreamerState) : StreamerState :=
  { st with running := false, reader := false, impl := none, pending := [] }

/-- The diagnostic text sent when the initial configuration write fails. -/
def configFailText : String :=
  "CloudSTT error: failed to write config (check API key/billing)."

/-- Result of `start`: the new state, the boolean return value, and the
Detection Results delivered to the host callback during the call. -/
structure StartResult where
  state : StreamerState
  ok : Bool
  callbacks : List DetectionResultWithText
  deriving DecidableEq

/-- Embedding of `start` (cloud-stt.cpp:49).  `streamCreated` is the oracle
for `stub->StreamingRecognize` returning a live stream, `configWriteOk`
for the initial configuration `Write` succeeding. -/
def start (st : StreamerState) (api_key lang : String) (now : Nat)
    (streamCreated configWriteOk : Bool) : StartResult :=
  if st.running then ⟨st, true, []⟩
  else
    let st1 : StreamerState :=
      { st with api_key := api_key, language_code := lang, start_ms := now,
                impl := some ⟨streamCreated⟩ }
    if ¬streamCreated then ⟨st1, false, []⟩
    else if ¬configWriteOk then
      ⟨{ st1 with impl := none }, false,
       match st1.gf with
       | some _ => [⟨configFailText, DetectionResult.PARTIAL, "en", now, now⟩]
       | none => []⟩
    else ⟨{ st1 with running := true, reader := true }, true, []⟩

/-- Embedding of `doRotate` (cloud-stt.cpp:142): stop, restart with the
saved credential and language, then clear the rotation gate
unconditionally. -/
def doRotate (st : StreamerState) (now : Nat) (streamCreated configWriteOk : Bool) :
    StartResult :=
  let st1 := stop st
  let r := start st1 st1.api_key st1.language_code now streamCreated configWriteOk
  ⟨{ r.state with rotating := false }, r.ok, r.callbacks⟩

/-- The drain loop of `pushFloat16k` (cloud-stt.cpp:169): while at least
1600 samples are pending, remove the first 1600 and encode them into one
frame.  Returns the frames in order and the remaining pending samples. -/
def drainChunks (l : List ℚ) : List (List ℤ) × List ℚ :=
  if h : 1600 ≤ l.length then
    (((l.take 1600).map f32_to_s16) :: (drainChunks (l.drop 1600)).1,
     (drainChunks (l.drop 1600)).2)
  else ([], l)
  termination_by l.length
  decreasing_by simp; omega

/-- The write loop of `pushFloat16k` (cloud-stt.cpp:179): for each drained
chunk, bail out (clearing `running_`) when the handle or stream is absent
or the write fails.  `w i` is the oracle for the i-th write of this call.
Returns the successfully written frames and the running flag after the
loop. -/
def writeChunks (sp : Bool) (w : Nat → Bool) : Nat → List (List ℤ) → List (List ℤ) × Bool
  | _, [] => ([], true)
  | i, c :: cs =>
    if sp then
      if w i then
        (c :: (writeChunks sp w (i + 1) cs).1, (writeChunks sp w (i + 1) cs).2)
      else ([], false)
    else ([], false)

/-- Body of `pushFloat16k` for a non-null sample pointer carrying the
samples `d`: the guard, the rotation check, the drain loop and the write
loop of cloud-stt.cpp:152-194. -/
def pushBody (st : StreamerState) (d : List ℚ) (now : Nat) (w : Nat → Bool) :
    StreamerState × List (List ℤ) :=
  if ¬st.running ∨ d = [] then (st, [])
  else
    let st1 := if shouldRotate st now then (requestRotate st).1 else st
    if st1.rotating then (st1, [])
    else
      let buf := st1.pending ++ d
      let chunks := (drainChunks buf).1
      let wr := writeChunks (hasStream st1) w 0 chunks
      ({ st1 with pending := (drainChunks buf).2,
                  sent_samples := st1.sent_samples + 1600 * chunks.length,
                  running := wr.2 }, wr.1)

/-- Embedding of `pushFloat16k` (cloud-stt.cpp:152).  `data = none` models a
null sample pointer; `now` is the clock oracle; `w` the audio-write
oracle.  Returns the new state and the frames actually written. -/
def pushFloat16k (st : StreamerState) (data : Option (List ℚ)) (now : Nat)
    (w : Nat → Bool) : StreamerState × List (List ℤ) :=
  match data with
  | none => (st, [])
  | some d => pushBody st d now w

/-- Pushing a list of sample batches in sequence, accumulating the emitted
frames. -/
def pushMany : StreamerState → List (List ℚ) → Nat → (Nat → Bool) →
    StreamerState × List (List ℤ)
  | st, [], _, _ => (st, [])
  | st, d :: rest, now, w =>
    let r := pushFloat16k st (some d) now w
    let r2 := pushMany r.1 rest now w
    (r2.1, r.2 ++ r2.2)

/-- Sequential model of n concurrent `requestRotate` calls: the atomic CAS
serialises them; returns the final state and how many calls proceeded. -/
def requestRotateSeq : StreamerState → Nat → StreamerState × Nat
  | st, 0 => (st, 0)
  | st, n + 1 =>
    let r := requestRotate st
    let rest := requestRotateSeq r.1 n
    (rest.1, (if r.2 then 1 else 0) + rest.2)

/-- Top transcript of one result entry of a streaming response
(`r.alternatives(0).transcript()` when present). -/
structure SpeechRecognitionAlternative where
  transcript : String
  deriving DecidableEq, Repr

/-- One result entry of a `StreamingRecognizeResponse`. -/
structure StreamingRecognitionResult where
  alternatives : List SpeechRecognitionAlternative
  is_final : Bool
  deriving DecidableEq, Repr

/-- The text accumulation of the read loop (cloud-stt.cpp:207): concatenate
the top alternative of every entry that has one. -/
def responseText (resp : List StreamingRecognitionResult) : String :=
  resp.foldl
    (fun acc r =>
      match r.alternatives with
      | a :: _ => acc ++ a.transcript
      | [] => acc)
    ""

/-- The finality accumulation of the read loop (cloud-stt.cpp:211): true
when any entry is final. -/
def responseIsFinal (resp : List StreamingRecognitionResult) : Bool :=
  resp.foldl (fun acc r => acc || r.is_final) false

/-- The language selection of the read loop (cloud-stt.cpp:221):
`cloud_transcription_language` when non-empty, else a non-null non-empty
`whisper_params.language`, else "en". -/
def chooseLanguage (g : TranscriptionFilterData) : String :=
  if g.cloud_transcription_language ≠ "" then g.cloud_transcription_language
  else
    match g.whisper_language with
    | some l => if 0 < l.length then l else "en"
    | none => "en"

/-- The top alternative's transcript of one result entry, or "" when the
entry has no alternatives.  Vocabulary for stating the concatenation
property of the read loop. -/
def topTranscript (r : StreamingRecognitionResult) : String :=
  match r.alternatives with
  | a :: _ => a.transcript
  | [] => ""

/-- One iteration of `resultsThread`'s read loop (cloud-stt.cpp:202) on a
response already read: the Detection Result delivered to the callback, if
any. -/
def handleResponse (gf : Option TranscriptionFilterData)
    (resp : List StreamingRecognitionResult) (now : Nat) :
    Option DetectionResultWithText :=
  if responseText resp = "" then none
  else
    match gf with
    | some g =>
      some ⟨responseText resp,
            if responseIsFinal resp then DetectionResult.SPEECH else DetectionResult.PARTIAL,
            chooseLanguage g, 0, now⟩
    | none => none

/-- A live, freshly started streamer: running, empty buffer, live stream. -/
def stRun : StreamerState :=
  ⟨none, [], true, true, some ⟨true⟩, 0, "en", "key", false, 0, 240000⟩

/-- A streamer that has never been started. -/
def stIdle : StreamerState :=
  ⟨none, [], false, false, none, 0, "", "", false, 0, 240000⟩

/-- A running streamer with a rotation in flight. -/
def stRot : StreamerState :=
  ⟨none, [], true, true, some ⟨true⟩, 0, "en", "key", true, 0, 240000⟩

/-- An idle streamer whose host data pointer is set. -/
def stGf : StreamerState :=
  ⟨some ⟨"", none⟩, [], false, false, none, 0, "", "", false, 0, 240000⟩

/-- Ten batches of 200 zero samples, the worked example of the buffering
property. -/
def pushesW : List (List ℚ) := List.replicate 10 (List.replicate 200 0)

end GoogleSttStreamer

theorem lroundQ_mono {x y : ℚ} (h : x ≤ y) : lroundQ x ≤ lroundQ y := by
  unfold lroundQ
  split
  · split
    · exact Int.floor_le_floor (by linarith)
    · linarith [le_trans (by assumption : (0:ℚ) ≤ x) h]
  · split
    · have h1 : (0:ℤ) ≤ ⌊-x + 1 / 2⌋ := Int.floor_nonneg.mpr (by linarith)
      have h2 : (0:ℤ) ≤ ⌊y + 1 / 2⌋ := Int.floor_nonneg.mpr (by linarith)
      omega
    · have := Int.floor_le_floor (show -y + 1/2 ≤ -x + 1/2 by linarith)
      omega

theorem lroundQ_bounds {x : ℚ} (h1 : -32767 ≤ x) (h2 : x ≤ 32767) :
    -32767 ≤ lroundQ x ∧ lroundQ x ≤ 32767 := by
  unfold lroundQ
  split
  · constructor
    · have : (0:ℤ) ≤ ⌊x + 1 / 2⌋ := Int.floor_nonneg.mpr (by linarith)
      omega
    · have : ⌊x + 1 / 2⌋ < 32768 := by
        rw [Int.floor_lt]
        push_cast
        linarith
      omega
  · have hx : ¬ (0:ℚ) ≤ x := by assumption
    have hnn : (0:ℤ) ≤ ⌊-x + 1 / 2⌋ := Int.floor_nonneg.mpr (by linarith)
    constructor
    · have : ⌊-x + 1 / 2⌋ < 32768 := by
        rw [Int.floor_lt]
        push_cast
        linarith
      omega
    · omega

theorem clampF_mem (x : ℚ) : -1 ≤ clampF x ∧ clampF x ≤ 1 := by
  unfold clampF
  split
  · norm_num
  · split
    · norm_num
    · constructor <;> linarith

theorem clampF_mono {x y : ℚ} (h : x ≤ y) : clampF x ≤ clampF y := by
  unfold clampF
  split <;> split <;> first | linarith | (split <;> first | linarith | (split <;> linarith))

theorem clampF_idem (x : ℚ) : clampF (clampF x) = clampF x := by
  unfold clampF
  split <;> split <;> first | norm_num | (split <;> split <;> first | rfl | linarith | norm_num)

/-- Claim C5: for every input x, the encoder `f32_to_s16` clamps to [-1,1],
scales by 32767 and rounds to nearest, so its value lies in
[-32767, 32767]; it is monotonic; and it agrees with itself post-clamping
for every x outside [-1, 1]. -/
theorem claim_C5 (x y : ℚ) :
    (-32767 ≤ f32_to_s16 x ∧ f32_to_s16 x ≤ 32767) ∧
    (x ≤ y → f32_to_s16 x ≤ f32_to_s16 y) ∧
    ((x < -1 ∨ 1 < x) → f32_to_s16 (clampF x) = f32_to_s16 x) := by
  refine ⟨?_, ?_, ?_⟩
  · have hm := clampF_mem x
    exact lroundQ_bounds (by nlinarith [hm.1, hm.2]) (by nlinarith [hm.1, hm.2])
  · intro h
    exact lroundQ_mono (by nlinarith [clampF_mono h])
  · intro _
    unfold f32_to_s16
    rw [clampF_idem]

theorem claim_C5_witness :
    ((2:ℚ) ≤ 3 ∧ f32_to_s16 2 ≤ f32_to_s16 3) ∧
    (((2:ℚ) < -1 ∨ 1 < (2:ℚ)) ∧ f32_to_s16 (clampF 2) = f32_to_s16 2) :=
  ⟨⟨by norm_num, (claim_C5 2 3).2.1 (by norm_num)⟩,
   ⟨Or.inr (by norm_num), (claim_C5 2 3).2.2 (Or.inr (by norm_num))⟩⟩

namespace GoogleSttStreamer

theorem drainChunks_of_ge {l : List ℚ} (h : 1600 ≤ l.length) :
    drainChunks l =
      (((l.take 1600).map f32_to_s16) :: (drainChunks (l.drop 1600)).1,
       (drainChunks (l.drop 1600)).2) := by
  rw [drainChunks]
  simp [h]

theorem drainChunks_of_lt {l : List ℚ} (h : l.length < 1600) :
    drainChunks l = ([], l) := by
  rw [drainChunks]
  simp [Nat.not_le.mpr h]

theorem drainChunks_props :
    ∀ (n : Nat) (l : List ℚ), l.length ≤ n →
      (drainChunks l).1.length = l.length / 1600 ∧
      (drainChunks l).2 = l.drop (1600 * (l.length / 1600)) ∧
      (drainChunks l).1.flatten = (l.take (1600 * (l.length / 1600))).map f32_to_s16 ∧
      ∀ c ∈ (drainChunks l).1, c.length = 1600 := by
  intro n
  induction n with
  | zero =>
    intro l hl
    have hlen : l.length < 1600 := by omega
    rw [drainChunks_of_lt hlen]
    have : l.length / 1600 = 0 := Nat.div_eq_of_lt hlen
    simp [this]
  | succ n ih =>
    intro l hl
    by_cases hge : 1600 ≤ l.length
    · rw [drainChunks_of_ge hge]
      have hdl : (l.drop 1600).length = l.length - 1600 := by simp
      obtain ⟨ih1, ih2, ih3, ih4⟩ := ih (l.drop 1600) (by omega)
      have hdiv : l.length / 1600 = (l.length - 1600) / 1600 + 1 := by
        have h1 : l.length - 1600 + 1600 = l.length := by omega
        calc l.length / 1600 = (l.length - 1600 + 1600) / 1600 := by rw [h1]
          _ = (l.length - 1600) / 1600 + 1 := Nat.add_div_right _ (by norm_num)
      refine ⟨?_, ?_, ?_, ?_⟩
      · simp [ih1, hdl, hdiv]
      · rw [ih2, hdl, List.drop_drop, hdiv]
        congr 1
        ring
      · rw [List.flatten_cons, ih3, hdl, hdiv]
        have htk : l.take (1600 * ((l.length - 1600) / 1600 + 1)) =
            l.take 1600 ++ (l.drop 1600).take (1600 * ((l.length - 1600) / 1600)) := by
          have : 1600 * ((l.length - 1600) / 1600 + 1) =
              1600 + 1600 * ((l.length - 1600) / 1600) := by ring
          rw [this, List.take_add]
        rw [htk, List.map_append]
      · intro c hc
        rcases List.mem_cons.mp hc with h | h
        · subst h
          simp [List.length_take, Nat.min_eq_left hge]
        · exact ih4 c h
    · rw [drainChunks_of_lt (by omega)]
      have : l.length / 1600 = 0 := Nat.div_eq_of_lt (by omega)
      simp [this]

theorem drainChunks_length (l : List ℚ) :
    (drainChunks l).1.length = l.length / 1600 :=
  (drainChunks_props l.length l le_rfl).1

theorem drainChunks_rem (l : List ℚ) :
    (drainChunks l).2 = l.drop (1600 * (l.length / 1600)) :=
  (drainChunks_props l.length l le_rfl).2.1

theorem drainChunks_flatten (l : List ℚ) :
    (drainChunks l).1.flatten = (l.take (1600 * (l.length / 1600))).map f32_to_s16 :=
  (drainChunks_props l.length l le_rfl).2.2.1

theorem drainChunks_chunk_len (l : List ℚ) :
    ∀ c ∈ (drainChunks l).1, c.length = 1600 :=
  (drainChunks_props l.length l le_rfl).2.2.2

theorem drainChunks_rem_length (l : List ℚ) :
    (drainChunks l).2.length = l.length % 1600 := by
  rw [drainChunks_rem]
  simp [List.length_drop]
  omega

theorem drainChunks_rem_lt (l : List ℚ) : (drainChunks l).2.length < 1600 := by
  rw [drainChunks_rem_length]
  exact Nat.mod_lt _ (by norm_num)

theorem drainChunks_append :
    ∀ (n : Nat) (x y : List ℚ), x.length ≤ n →
      drainChunks (x ++ y) =
        ((drainChunks x).1 ++ (drainChunks ((drainChunks x).2 ++ y)).1,
         (drainChunks ((drainChunks x).2 ++ y)).2) := by
  intro n
  induction n with
  | zero =>
    intro x y hx
    rw [drainChunks_of_lt (show x.length < 1600 by omega)]
    simp
  | succ n ih =>
    intro x y hx
    by_cases hge : 1600 ≤ x.length
    · have hxy : 1600 ≤ (x ++ y).length := by simp; omega
      rw [drainChunks_of_ge hxy, drainChunks_of_ge hge]
      rw [List.take_append_of_le_length hge, List.drop_append_of_le_length hge]
      rw [ih (x.drop 1600) y (by simp; omega)]
      simp
    · rw [drainChunks_of_lt (show x.length < 1600 by omega)]
      simp

theorem writeChunks_all_ok (w : Nat → Bool) (hw : ∀ i, w i = true) :
    ∀ (i : Nat) (cs : List (List ℤ)), writeChunks true w i cs = (cs, true) := by
  intro i cs
  induction cs generalizing i with
  | nil => rfl
  | cons c cs ih =>
    unfold writeChunks
    simp [hw, ih]

theorem writeChunks_fail (w : Nat → Bool) :
    ∀ (j i : Nat) (cs : List (List ℤ)),
      (∀ k, k < j → w (i + k) = true) → w (i + j) = false → j < cs.length →
      writeChunks true w i cs = (cs.take j, false) := by
  intro j i cs
  induction cs generalizing i j with
  | nil => intro _ _ h; simp at h
  | cons c cs ih =>
    intro hpre hj hlen
    match j with
    | 0 =>
      unfold writeChunks
      simp at hj
      simp [hj]
    | j + 1 =>
      have h0 : w i = true := by
        have := hpre 0 (by omega)
        simpa using this
      unfold writeChunks
      rw [ih j (i + 1)
        (fun k hk => by
          have := hpre (k + 1) (by omega)
          rw [show i + 1 + k = i + (k + 1) by ring]
          exact this)
        (by rw [show i + 1 + j = i + (j + 1) by ring]; exact hj)
        (by simpa using hlen)]
      simp [h0]

theorem writeChunks_prefix (w : Nat → Bool) :
    ∀ (cs : List (List ℤ)) (sp : Bool) (i : Nat),
      (writeChunks sp w i cs).1.length ≤ cs.length := by
  intro cs
  induction cs with
  | nil => intro sp i; simp [writeChunks]
  | cons c cs ih =>
    intro sp i
    cases sp with
    | false => simp [writeChunks]
    | true =>
      cases hw : w i with
      | false => simp [writeChunks, hw]
      | true =>
        have h := ih true (i + 1)
        simp [writeChunks, hw]
        omega

theorem push_notRunning (st : StreamerState) (data : Option (List ℚ)) (now : Nat)
    (w : Nat → Bool) (h : st.running = false) :
    pushFloat16k st data now w = (st, []) := by
  unfold pushFloat16k
  match data with
  | none => rfl
  | some d =>
    unfold pushBody
    simp [h]

/-- A single push under normal conditions (running, no rotation pending,
stream live, all writes succeed): the buffer grows by the new samples and
every full 1600-sample chunk is drained, encoded and written, in order. -/
theorem push_ok (st : StreamerState) (d : List ℚ) (now : Nat) (w : Nat → Bool)
    (hrun : st.running = true) (hrot : st.rotating = false)
    (htime : now - st.start_ms ≤ st.rotate_interval_ms)
    (hstream : hasStream st = true) (hw : ∀ i, w i = true) (hd : d ≠ []) :
    pushFloat16k st (some d) now w =
      ({ st with pending := (drainChunks (st.pending ++ d)).2,
                 sent_samples :=
                   st.sent_samples + 1600 * (drainChunks (st.pending ++ d)).1.length },
       (drainChunks (st.pending ++ d)).1) := by
  have hsr : shouldRotate st now = false := by
    unfold shouldRotate
    simp [Nat.not_lt.mpr htime]
  show pushBody st d now w = _
  unfold pushBody
  rw [if_neg (show ¬(¬st.running = true ∨ d = []) by simp [hrun, hd])]
  simp only [hsr, Bool.false_eq_true, if_false]
  simp only [hrot, Bool.false_eq_true, if_false]
  rw [hstream, writeChunks_all_ok w hw]
  simp [Prod.ext_iff, StreamerState.mk.injEq, hrun]

theorem push_empty (st : StreamerState) (now : Nat) (w : Nat → Bool) :
    pushFloat16k st (some []) now w = (st, []) := by
  show pushBody st [] now w = _
  unfold pushBody
  simp

/-- A sequence of pushes under normal conditions behaves like draining the
concatenation of all pushed samples appended to the initial buffer. -/
theorem pushMany_ok (now : Nat) (w : Nat → Bool) (hw : ∀ i, w i = true) :
    ∀ (pushes : List (List ℚ)) (st : StreamerState),
      st.running = true → st.rotating = false →
      now - st.start_ms ≤ st.rotate_interval_ms → hasStream st = true →
      st.pending.length < 1600 →
      pushMany st pushes now w =
        ({ st with pending := (drainChunks (st.pending ++ pushes.flatten)).2,
                   sent_samples := st.sent_samples +
                     1600 * (drainChunks (st.pending ++ pushes.flatten)).1.length },
         (drainChunks (st.pending ++ pushes.flatten)).1) := by
  intro pushes
  induction pushes with
  | nil =>
    intro st hrun hrot htime hstream hpend
    simp [pushMany, drainChunks_of_lt hpend]
  | cons d rest ih =>
    intro st hrun hrot htime hstream hpend
    by_cases hd : d = []
    · subst hd
      simp only [pushMany]
      rw [push_empty]
      rw [ih st hrun hrot htime hstream hpend]
      simp
    · simp only [pushMany]
      rw [push_ok st d now w hrun hrot htime hstream hw hd]
      rw [ih ({ st with
                  pending := (drainChunks (st.pending ++ d)).2,
                  sent_samples := st.sent_samples +
                    1600 * (drainChunks (st.pending ++ d)).1.length })
            hrun hrot htime hstream (drainChunks_rem_lt (st.pending ++ d))]
      have happ := drainChunks_append (st.pending ++ d).length (st.pending ++ d)
        rest.flatten le_rfl
      simp only [List.flatten_cons, ← List.append_assoc]
      rw [happ]
      simp [Prod.ext_iff, StreamerState.mk.injEq]
      ring


/-- The shape of a push that passes the guard and the rotation check: the
drain always completes and the write loop determines the running flag and
the emitted frames. -/
theorem push_shape (st : StreamerState) (d : List ℚ) (now : Nat) (w : Nat → Bool)
    (hrun : st.running = true) (hrot : st.rotating = false)
    (htime : now - st.start_ms ≤ st.rotate_interval_ms) (hd : d ≠ []) :
    pushFloat16k st (some d) now w =
      ({ st with pending := (drainChunks (st.pending ++ d)).2,
                 sent_samples := st.sent_samples +
                   1600 * (drainChunks (st.pending ++ d)).1.length,
                 running :=
                   (writeChunks (hasStream st) w 0 (drainChunks (st.pending ++ d)).1).2 },
       (writeChunks (hasStream st) w 0 (drainChunks (st.pending ++ d)).1).1) := by
  have hsr : shouldRotate st now = false := by
    unfold shouldRotate
    simp [Nat.not_lt.mpr htime]
  show pushBody st d now w = _
  unfold pushBody
  rw [if_neg (show ¬(¬st.running = true ∨ d = []) by simp [hrun, hd])]
  simp only [hsr, Bool.false_eq_true, if_false]
  simp only [hrot, Bool.false_eq_true, if_false]

/-- Claim C1: while the client is running with no rotation in flight or
due, pushes drain the pending buffer FIFO in fixed 1600-sample chunks:
over any sequence of pushes from an empty buffer, the frames emitted
number ⌊total/1600⌋, are each 1600 samples, carry the encoded prefix of
the pushed samples in order, and the remainder (total mod 1600) stays
buffered. -/
theorem claim_C1 (st : StreamerState) (pushes : List (List ℚ)) (now : Nat)
    (w : Nat → Bool) (hrun : st.running = true) (hrot : st.rotating = false)
    (htime : now - st.start_ms ≤ st.rotate_interval_ms)
    (hstream : hasStream st = true) (hw : ∀ i, w i = true)
    (hpend : st.pending = []) :
    (pushMany st pushes now w).2.length = pushes.flatten.length / 1600 ∧
    (∀ c ∈ (pushMany st pushes now w).2, c.length = 1600) ∧
    (pushMany st pushes now w).2.flatten =
      (pushes.flatten.take (1600 * (pushes.flatten.length / 1600))).map f32_to_s16 ∧
    (pushMany st pushes now w).1.pending =
      pushes.flatten.drop (1600 * (pushes.flatten.length / 1600)) ∧
    (pushMany st pushes now w).1.pending.length = pushes.flatten.length % 1600 := by
  rw [pushMany_ok now w hw pushes st hrun hrot htime hstream (by simp [hpend])]
  simp only [hpend, List.nil_append]
  exact ⟨drainChunks_length _, drainChunks_chunk_len _, drainChunks_flatten _,
    drainChunks_rem _, drainChunks_rem_length _⟩

theorem claim_C1_witness :
    (stRun.running = true ∧ stRun.rotating = false ∧ stRun.pending = []) ∧
    ((pushMany stRun pushesW 0 (fun _ => true)).2.length =
        pushesW.flatten.length / 1600 ∧
      (∀ c ∈ (pushMany stRun pushesW 0 (fun _ => true)).2, c.length = 1600) ∧
      (pushMany stRun pushesW 0 (fun _ => true)).2.flatten =
        (pushesW.flatten.take (1600 * (pushesW.flatten.length / 1600))).map f32_to_s16 ∧
      (pushMany stRun pushesW 0 (fun _ => true)).1.pending =
        pushesW.flatten.drop (1600 * (pushesW.flatten.length / 1600)) ∧
      (pushMany stRun pushesW 0 (fun _ => true)).1.pending.length =
        pushesW.flatten.length % 1600) :=
  ⟨⟨rfl, rfl, rfl⟩,
   claim_C1 stRun pushesW 0 (fun _ => true) rfl rfl (by decide) rfl (fun _ => rfl) rfl⟩

/-- Claim C9: within one push every full 1600-sample chunk is removed from
the pending buffer and added to the sent-sample counter before any write
is attempted, so whatever the stream handle and write outcomes are, the
final pending buffer is the remainder and the counter counts every
drained chunk, while at most that many frames are actually written. -/
theorem claim_C9 (st : StreamerState) (d : List ℚ) (now : Nat) (w : Nat → Bool)
    (hrun : st.running = true) (hrot : st.rotating = false)
    (htime : now - st.start_ms ≤ st.rotate_interval_ms) (hd : d ≠ []) :
    (pushFloat16k st (some d) now w).1.pending =
      (st.pending ++ d).drop (1600 * ((st.pending.length + d.length) / 1600)) ∧
    (pushFloat16k st (some d) now w).1.sent_samples =
      st.sent_samples + 1600 * ((st.pending.length + d.length) / 1600) ∧
    (pushFloat16k st (some d) now w).2.length ≤
      (st.pending.length + d.length) / 1600 := by
  rw [push_shape st d now w hrun hrot htime hd]
  have hlen : (st.pending ++ d).length = st.pending.length + d.length :=
    List.length_append _ _
  refine ⟨?_, ?_, ?_⟩
  · show (drainChunks (st.pending ++ d)).2 = _
    rw [drainChunks_rem, hlen]
  · show st.sent_samples + 1600 * (drainChunks (st.pending ++ d)).1.length = _
    rw [drainChunks_length, hlen]
  · show (writeChunks (hasStream st) w 0 (drainChunks (st.pending ++ d)).1).1.length ≤ _
    calc (writeChunks (hasStream st) w 0 (drainChunks (st.pending ++ d)).1).1.length
        ≤ (drainChunks (st.pending ++ d)).1.length := writeChunks_prefix w _ _ _
      _ = (st.pending.length + d.length) / 1600 := by rw [drainChunks_length, hlen]

theorem claim_C9_witness :
    (stRun.running = true ∧ stRun.rotating = false ∧ ([(0:ℚ)] ≠ [])) ∧
    ((pushFloat16k stRun (some [(0:ℚ)]) 0 (fun _ => false)).1.pending =
        (stRun.pending ++ [(0:ℚ)]).drop
          (1600 * ((stRun.pending.length + [(0:ℚ)].length) / 1600)) ∧
      (pushFloat16k stRun (some [(0:ℚ)]) 0 (fun _ => false)).1.sent_samples =
        stRun.sent_samples + 1600 * ((stRun.pending.length + [(0:ℚ)].length) / 1600) ∧
      (pushFloat16k stRun (some [(0:ℚ)]) 0 (fun _ => false)).2.length ≤
        (stRun.pending.length + [(0:ℚ)].length) / 1600) :=
  ⟨⟨rfl, rfl, by simp⟩,
   claim_C9 stRun [(0:ℚ)] 0 (fun _ => false) rfl rfl (by decide) (by simp)⟩

/-- Claim C6: a failed mid-stream audio write marks the session
not-running, the failed chunk and everything after it are not written in
that call, and every later push is a complete no-op — the write is never
retried. -/
theorem claim_C6 (st : StreamerState) (d : List ℚ) (now : Nat) (w : Nat → Bool)
    (j : Nat) (hrun : st.running = true) (hrot : st.rotating = false)
    (htime : now - st.start_ms ≤ st.rotate_interval_ms)
    (hstream : hasStream st = true) (hd : d ≠ [])
    (hpre : ∀ k, k < j → w k = true) (hj : w j = false)
    (hjlt : j < (st.pending.length + d.length) / 1600) :
    (pushFloat16k st (some d) now w).1.running = false ∧
    (pushFloat16k st (some d) now w).2 = (drainChunks (st.pending ++ d)).1.take j ∧
    (pushFloat16k st (some d) now w).2.length = j ∧
    (∀ d2 now2 w2, pushFloat16k (pushFloat16k st (some d) now w).1 d2 now2 w2 =
      ((pushFloat16k st (some d) now w).1, [])) := by
  have hlen : (drainChunks (st.pending ++ d)).1.length =
      (st.pending.length + d.length) / 1600 := by
    rw [drainChunks_length, List.length_append]
  have hwc : writeChunks true w 0 (drainChunks (st.pending ++ d)).1 =
      ((drainChunks (st.pending ++ d)).1.take j, false) :=
    writeChunks_fail w j 0 (drainChunks (st.pending ++ d)).1
      (fun k hk => by simpa using hpre k hk) (by simpa using hj) (by omega)
  rw [push_shape st d now w hrun hrot htime hd]
  rw [hstream, hwc]
  refine ⟨rfl, rfl, ?_, ?_⟩
  · show ((drainChunks (st.pending ++ d)).1.take j).length = j
    rw [List.length_take]
    omega
  · intro d2 now2 w2
    exact push_notRunning _ d2 now2 w2 rfl

theorem claim_C6_witness :
    (stRun.running = true ∧ (List.replicate 1600 (0:ℚ) ≠ []) ∧
      ((fun _ : Nat => false) 0 = false) ∧
      0 < (stRun.pending.length + (List.replicate 1600 (0:ℚ)).length) / 1600) ∧
    ((pushFloat16k stRun (some (List.replicate 1600 (0:ℚ))) 0 (fun _ => false)).1.running =
        false ∧
      (pushFloat16k stRun (some (List.replicate 1600 (0:ℚ))) 0 (fun _ => false)).2 =
        (drainChunks (stRun.pending ++ List.replicate 1600 (0:ℚ))).1.take 0 ∧
      (pushFloat16k stRun (some (List.replicate 1600 (0:ℚ))) 0 (fun _ => false)).2.length =
        0 ∧
      (∀ d2 now2 w2,
        pushFloat16k
            (pushFloat16k stRun (some (List.replicate 1600 (0:ℚ))) 0 (fun _ => false)).1
            d2 now2 w2 =
          ((pushFloat16k stRun (some (List.replicate 1600 (0:ℚ))) 0 (fun _ => false)).1,
            []))) := by
  have hne : List.replicate 1600 (0:ℚ) ≠ [] := by
    intro h
    have h2 := congrArg List.length h
    rw [List.length_replicate] at h2
    simp at h2
  have hlt : 0 < (stRun.pending.length + (List.replicate 1600 (0:ℚ)).length) / 1600 := by
    rw [show stRun.pending.length = 0 from rfl, List.length_replicate]
    norm_num
  exact ⟨⟨rfl, hne, rfl, hlt⟩,
    claim_C6 stRun (List.replicate 1600 (0:ℚ)) 0 (fun _ => false) 0 rfl rfl (by decide)
      rfl hne (fun k hk => absurd hk (by omega)) rfl hlt⟩

/-- Claim C8: a push is a complete no-op when the client is not running,
the sample pointer is null, or the sample count is zero; and while a
rotation is in flight the pushed samples are dropped with no state
change. -/
theorem claim_C8 (st : StreamerState) (data : Option (List ℚ)) (now : Nat)
    (w : Nat → Bool) :
    (st.running = false → pushFloat16k st data now w = (st, [])) ∧
    pushFloat16k st none now w = (st, []) ∧
    pushFloat16k st (some []) now w = (st, []) ∧
    (st.rotating = true → ∀ d, pushFloat16k st (some d) now w = (st, [])) := by
  refine ⟨fun h => push_notRunning st data now w h, rfl, push_empty st now w, ?_⟩
  intro hrot d
  show pushBody st d now w = _
  unfold pushBody
  by_cases hguard : ¬st.running = true ∨ d = []
  · rw [if_pos hguard]
  · rw [if_neg hguard]
    have hreq : (requestRotate st).1 = st := by
      unfold requestRotate
      rw [if_pos hrot]
    have hst1 : (if shouldRotate st now = true then (requestRotate st).1 else st) = st := by
      split
      · exact hreq
      · rfl
    rw [hst1, if_pos hrot]

theorem claim_C8_witness :
    stRot.rotating = true ∧
    pushFloat16k stRot (some [(1:ℚ), 2]) 0 (fun _ => true) = (stRot, []) :=
  ⟨rfl, (claim_C8 stRot (some [(1:ℚ), 2]) 0 (fun _ => true)).2.2.2 rfl [(1:ℚ), 2]⟩

/-- Claim C2: when the stream is created but the initial configuration
write fails, `start` returns failure, delivers exactly one synthetic
PARTIAL Detection Result to the host callback, spawns no reader thread,
releases the network handle, and never enters the running state. -/
theorem claim_C2 (st : StreamerState) (key lang : String) (now : Nat)
    (g : TranscriptionFilterData) (hrun : st.running = false)
    (hgf : st.gf = some g) (hreader : st.reader = false) :
    (start st key lang now true false).ok = false ∧
    (start st key lang now true false).callbacks =
      [⟨configFailText, DetectionResult.PARTIAL, "en", now, now⟩] ∧
    (start st key lang now true false).state.running = false ∧
    (start st key lang now true false).state.reader = false ∧
    (start st key lang now true false).state.impl = none := by
  unfold start
  rw [if_neg (show ¬(st.running = true) by simp [hrun])]
  simp [hgf, hreader, hrun]

theorem claim_C2_witness :
    (stGf.running = false ∧ stGf.gf = some ⟨"", none⟩ ∧ stGf.reader = false) ∧
    ((start stGf "k" "fr" 7 true false).ok = false ∧
      (start stGf "k" "fr" 7 true false).callbacks =
        [⟨configFailText, DetectionResult.PARTIAL, "en", 7, 7⟩] ∧
      (start stGf "k" "fr" 7 true false).state.running = false ∧
      (start stGf "k" "fr" 7 true false).state.reader = false ∧
      (start stGf "k" "fr" 7 true false).state.impl = none) :=
  ⟨⟨rfl, rfl, rfl⟩, claim_C2 stGf "k" "fr" 7 ⟨"", none⟩ rfl rfl rfl⟩

/-- Claim C10: calling `start` while already running returns success
immediately and changes nothing at all — same state, no callbacks. -/
theorem claim_C10 (st : StreamerState) (key lang : String) (now : Nat)
    (sc cw : Bool) (hrun : st.running = true) :
    start st key lang now sc cw = ⟨st, true, []⟩ := by
  unfold start
  rw [if_pos hrun]

theorem claim_C10_witness :
    stRun.running = true ∧ start stRun "other" "de" 99 false false = ⟨stRun, true, []⟩ :=
  ⟨rfl, claim_C10 stRun "other" "de" 99 false false rfl⟩

/-- Counterexample to claim C7 as stated: starting from an idle client,
when stream creation fails `start` does return failure, but session state
is retained — the partially created network handle (channel and stub
without a stream) stays in `impl_`, and the credential was stored. -/
theorem claim_C7_counterexample :
    (start stIdle "k" "fr" 5 false true).ok = false ∧
    ¬((start stIdle "k" "fr" 5 false true).state.impl = none) ∧
    (start stIdle "k" "fr" 5 false true).state.api_key = "k" := by
  refine ⟨rfl, ?_, rfl⟩
  intro h
  simp [start, stIdle] at h

/-- Claim C7 amended: if stream creation fails, `start` returns failure,
the client does not enter the running state and no reader thread is
spawned; however the partially created network handle (with no live
stream) and the supplied credential, language and timestamp are retained
in the client's fields. -/
theorem claim_C7_amended (st : StreamerState) (key lang : String) (now : Nat)
    (cw : Bool) (hrun : st.running = false) :
    (start st key lang now false cw).ok = false ∧
    (start st key lang now false cw).state.running = false ∧
    (start st key lang now false cw).state.reader = st.reader ∧
    (start st key lang now false cw).callbacks = [] ∧
    (start st key lang now false cw).state.impl = some ⟨false⟩ ∧
    (start st key lang now false cw).state.api_key = key ∧
    (start st key lang now false cw).state.language_code = lang ∧
    (start st key lang now false cw).state.start_ms = now ∧
    (start st key lang now false cw).state.pending = st.pending := by
  unfold start
  rw [if_neg (show ¬(st.running = true) by simp [hrun])]
  simp [hrun]

theorem claim_C7_witness :
    stIdle.running = false ∧
    ((start stIdle "k" "fr" 5 false true).ok = false ∧
      (start stIdle "k" "fr" 5 false true).state.running = false ∧
      (start stIdle "k" "fr" 5 false true).state.reader = stIdle.reader ∧
      (start stIdle "k" "fr" 5 false true).callbacks = [] ∧
      (start stIdle "k" "fr" 5 false true).state.impl = some ⟨false⟩ ∧
      (start stIdle "k" "fr" 5 false true).state.api_key = "k" ∧
      (start stIdle "k" "fr" 5 false true).state.language_code = "fr" ∧
      (start stIdle "k" "fr" 5 false true).state.start_ms = 5 ∧
      (start stIdle "k" "fr" 5 false true).state.pending = stIdle.pending) :=
  ⟨rfl, claim_C7_amended stIdle "k" "fr" 5 true rfl⟩

theorem requestRotateSeq_stuck :
    ∀ (n : Nat) (st : StreamerState), st.rotating = true →
      requestRotateSeq st n = (st, 0) := by
  intro n
  induction n with
  | zero => intro st _; rfl
  | succ n ih =>
    intro st h
    have hr : requestRotate st = (st, false) := by
      unfold requestRotate
      rw [if_pos h]
    simp only [requestRotateSeq, hr]
    rw [ih st h]
    simp

/-- Claim C3: of any number of serialized `requestRotate` calls starting
with the gate clear, exactly one proceeds (the rest change nothing), and
the rotation task itself clears the gate after stop and restart whether
or not the restart succeeds. -/
theorem claim_C3 (st : StreamerState) (n : Nat) (hrot : st.rotating = false)
    (hn : 1 ≤ n) :
    (requestRotateSeq st n).2 = 1 ∧
    (requestRotateSeq st n).1 = { st with rotating := true } ∧
    (∀ st2, st2.rotating = true → requestRotate st2 = (st2, false)) ∧
    (∀ st2 now sc cw, (doRotate st2 now sc cw).state.rotating = false) := by
  obtain ⟨m, rfl⟩ : ∃ m, n = m + 1 := ⟨n - 1, by omega⟩
  have hr : requestRotate st = ({ st with rotating := true }, true) := by
    unfold requestRotate
    rw [if_neg (show ¬(st.rotating = true) by simp [hrot])]
  have hseq : requestRotateSeq st (m + 1) = ({ st with rotating := true }, 1) := by
    simp only [requestRotateSeq, hr]
    rw [requestRotateSeq_stuck m { st with rotating := true } rfl]
    simp
  refine ⟨by rw [hseq], by rw [hseq], ?_, ?_⟩
  · intro st2 h
    unfold requestRotate
    rw [if_pos h]
  · intro st2 now sc cw
    rfl

theorem claim_C3_witness :
    (stRun.rotating = false ∧ 1 ≤ 3) ∧
    ((requestRotateSeq stRun 3).2 = 1 ∧
      (requestRotateSeq stRun 3).1 = { stRun with rotating := true } ∧
      (∀ st2, st2.rotating = true → requestRotate st2 = (st2, false)) ∧
      (∀ st2 now sc cw, (doRotate st2 now sc cw).state.rotating = false)) :=
  ⟨⟨rfl, by norm_num⟩, claim_C3 stRun 3 rfl (by norm_num)⟩

theorem joinF_acc :
    ∀ (l : List String) (acc : String),
      List.foldl (fun r s => r ++ s) acc l = acc ++ String.join l := by
  intro l
  induction l with
  | nil => intro acc; simp [String.join]
  | cons a l ih =>
    intro acc
    show List.foldl (fun r s => r ++ s) (acc ++ a) l = acc ++ String.join (a :: l)
    have hj : String.join (a :: l) = a ++ String.join l := by
      show List.foldl (fun r s => r ++ s) ("" ++ a) l = a ++ String.join l
      rw [String.empty_append, ih a]
    rw [ih (acc ++ a), hj, String.append_assoc]

theorem responseText_go :
    ∀ (resp : List StreamingRecognitionResult) (acc : String),
      List.foldl
        (fun acc r =>
          match r.alternatives with
          | a :: _ => acc ++ a.transcript
          | [] => acc)
        acc resp = acc ++ String.join (resp.map topTranscript) := by
  intro resp
  induction resp with
  | nil => intro acc; simp [String.join]
  | cons r rest ih =>
    intro acc
    simp only [List.foldl_cons, List.map_cons]
    have hj : String.join (topTranscript r :: rest.map topTranscript) =
        topTranscript r ++ String.join (rest.map topTranscript) := by
      show List.foldl (fun r s => r ++ s) ("" ++ topTranscript r)
          (rest.map topTranscript) = _
      rw [String.empty_append, joinF_acc]
    rw [hj]
    cases halt : r.alternatives with
    | nil =>
      simp only [halt]
      rw [ih]
      simp [topTranscript, halt]
    | cons a as =>
      simp only [halt]
      rw [ih]
      simp [topTranscript, halt, String.append_assoc]

theorem responseText_eq (resp : List StreamingRecognitionResult) :
    responseText resp = String.join (resp.map topTranscript) := by
  unfold responseText
  rw [responseText_go]
  exact String.empty_append _

theorem responseIsFinal_go :
    ∀ (resp : List StreamingRecognitionResult) (acc : Bool),
      List.foldl (fun acc r => acc || r.is_final) acc resp =
        (acc || resp.any (fun r => r.is_final)) := by
  intro resp
  induction resp with
  | nil => intro acc; simp
  | cons r rest ih =>
    intro acc
    simp only [List.foldl_cons, List.any_cons]
    rw [ih]
    simp [Bool.or_assoc]

theorem responseIsFinal_eq (resp : List StreamingRecognitionResult) :
    responseIsFinal resp = resp.any (fun r => r.is_final) := by
  unfold responseIsFinal
  rw [responseIsFinal_go]
  exact Bool.false_or _

/-- Claim C4: for every response, the delivered text is the concatenation
of the top alternative's transcript over all entries; the result is final
(SPEECH) exactly when some entry was final and PARTIAL otherwise; nothing
is delivered when the text is empty; the language falls back from the
configured transcription language to the base recognition language to
"en"; the start timestamp is 0 and the end timestamp is the current
time. -/
theorem claim_C4 (g : TranscriptionFilterData)
    (resp : List StreamingRecognitionResult) (now : Nat) :
    handleResponse (some g) resp now =
      if String.join (resp.map topTranscript) = "" then none
      else
        some ⟨String.join (resp.map topTranscript),
              if resp.any (fun r => r.is_final) then DetectionResult.SPEECH
              else DetectionResult.PARTIAL,
              if g.cloud_transcription_language ≠ "" then
                g.cloud_transcription_language
              else
                match g.whisper_language with
                | some l => if 0 < l.length then l else "en"
                | none => "en",
              0, now⟩ := by
  unfold handleResponse chooseLanguage
  rw [responseText_eq, responseIsFinal_eq]
end GoogleSttStreamer
